import Mathlib

/-!
Verification of the SekaiTranslatorV parser-selection, registry, encoding and
plugin-distribution core, shallowly embedded from the Python sources under
`src/sekai-ui` (`parsers/autodetect.py`, `parsers/registry.py`,
`parsers/entries.py`, `parsers/repository.py`, `services/encoding_service.py`,
`services/file_ops_service.py`).

Modelling conventions:
* byte strings are `List Nat` (each entry one byte value);
* Python `str` is Lean `String`; `str.strip`, `str.lower`, `str.replace`
  and `sorted` are modelled by the executable `pyTrim`, `pyLower`,
  `pyReplace` and `pySorted` below, faithful on the ASCII data the
  properties are about;
* detect confidence scores are `ℚ` (only their ordering matters to the code);
* a Python function that may raise is embedded with `Option`/`Except`,
  `none`/`.error` being the raising outcome;
* Python standard-library codecs (`str.encode` / `bytes.decode`) are not part
  of this repository, so they enter the embedding as explicit function
  parameters (`encodeFn`, `decodeFn`, `strictDec`, `replaceDec`).
-/

namespace Sekai

/-! ## Small Python-shaped helpers -/

/-- ASCII whitespace (the characters `str.strip()` removes on the ASCII
data handled here). -/
def isPySpace (c : Char) : Bool :=
  c = ' ' ∨ c = '\t' ∨ c = '\n' ∨ c = '\x0d' ∨ c = '\x0b' ∨ c = '\x0c'

/-- Python `str.strip()`. -/
def pyTrim (s : String) : String :=
  ⟨((s.data.dropWhile isPySpace).reverse.dropWhile isPySpace).reverse⟩

/-- Python `str.lower()` (ASCII range; the identifiers, encodings and
statuses the properties quantify over are ASCII). -/
def pyLowerChar (c : Char) : Char :=
  if 'A' ≤ c ∧ c ≤ 'Z' then Char.ofNat (c.toNat + 32) else c

/-- Python `str.lower()`. -/
def pyLower (s : String) : String := ⟨s.data.map pyLowerChar⟩

/-- Left-to-right non-overlapping replacement, fuelled for structural
recursion (the fuel is the char count, one char at least is consumed per
step). -/
def replaceAux (pat rep : List Char) : Nat → List Char → List Char
  | _, [] => []
  | 0, cs => cs
  | n + 1, c :: rest =>
    if pat.isPrefixOf (c :: rest) then
      rep ++ replaceAux pat rep n (List.drop (pat.length - 1) rest)
    else c :: replaceAux pat rep n rest

/-- Python `s.replace(pat, rep)` for non-empty `pat` (every occurrence in
the sources has a non-empty pattern). -/
def pyReplace (s pat rep : String) : String :=
  if pat.data = [] then s
  else ⟨replaceAux pat.data rep.data s.data.length s.data⟩

/-- Association list with Python-`dict` semantics: lookup of the first
matching key. -/
def dictGet {α : Type} : List (String × α) → String → Option α
  | [], _ => none
  | kv :: rest, k => if kv.1 = k then some kv.2 else dictGet rest k

/-- Association list with Python-`dict` semantics: `d[k] = v` replaces the
entry in place when the key exists, otherwise appends it. -/
def dictSet {α : Type} : List (String × α) → String → α → List (String × α)
  | [], k, v => [(k, v)]
  | kv :: rest, k, v => if kv.1 = k then (k, v) :: rest else kv :: dictSet rest k v

/-- Python `", ".join(l)`-style joining. -/
def pyJoin (sep : String) : List String → String
  | [] => ""
  | [x] => x
  | x :: y :: rest => x ++ sep ++ pyJoin sep (y :: rest)

/-- Code-point lexicographic comparison on char lists (the order Python's
`sorted` uses on the ASCII identifiers at hand), executable by the
kernel. -/
def lexLe : List Char → List Char → Bool
  | [], _ => true
  | _ :: _, [] => false
  | x :: xs, y :: ys =>
    if x.toNat < y.toNat then true
    else if y.toNat < x.toNat then false
    else lexLe xs ys

/-- `a <= b` on Python strings. -/
def pyStrLe (a b : String) : Bool := lexLe a.data b.data

/-- Insertion step of `sorted` over strings. -/
def sortedInsert (x : String) : List String → List String
  | [] => [x]
  | y :: ys => if pyStrLe x y then x :: y :: ys else y :: sortedInsert x ys

/-- Python `sorted` over strings (insertion sort; only ordering and
membership are used by the development). -/
def pySorted (l : List String) : List String := l.foldr sortedInsert []

/-- Index of the last occurrence of `c` in `cs`, if any
(Python `str.rfind`). -/
def lastIndexOf (cs : List Char) (c : Char) : Option Nat :=
  cs.enum.foldl (fun acc p => if p.2 = c then some p.1 else acc) none

/-- `posixpath.splitext`: split a path into root and extension.  The dot must
come after the last `/`, and a basename consisting only of leading dots has
no extension. -/
def splitext (p : String) : String × String :=
  let cs := p.data
  let sep : Int := ((lastIndexOf cs '/').map (Int.ofNat)).getD (-1)
  let dot : Int := ((lastIndexOf cs '.').map (Int.ofNat)).getD (-1)
  if sep < dot then
    let d := dot.toNat
    let start := (sep + 1).toNat
    if (List.range' start (d - start)).any (fun k => cs.getD k '.' ≠ '.') then
      (⟨cs.take d⟩, ⟨cs.drop d⟩)
    else (p, "")
  else (p, "")

/-- Python `pat in b` for byte strings. -/
def bytesContains (pat : List Nat) : List Nat → Bool
  | [] => pat.isPrefixOf []
  | b :: rest => pat.isPrefixOf (b :: rest) || bytesContains pat rest

/-! ## EncodingService (`services/encoding_service.py`) -/

/-- `codecs.BOM_UTF8`. -/
def BOM_UTF8 : List Nat := [0xEF, 0xBB, 0xBF]

/-- `codecs.BOM_UTF16_LE`. -/
def BOM_UTF16_LE : List Nat := [0xFF, 0xFE]

/-- `codecs.BOM_UTF16_BE`. -/
def BOM_UTF16_BE : List Nat := [0xFE, 0xFF]

/-- Result record of `EncodingService.decode_bytes`. -/
structure DecodedText where
  text : String
  newline_style : String
  had_bom : Bool
deriving DecidableEq

/-- `EncodingService.detect_newline_style_bytes`. -/
def detect_newline_style_bytes (data : List Nat) : String :=
  if bytesContains [0x0D, 0x0A] data then "\r\n" else "\n"

/-- `EncodingService.normalize_newlines`. -/
def normalize_newlines (text : String) (newline_style : String) : String :=
  if text = "" then ""
  else
    let s := pyReplace (pyReplace text "\r\n" "\n") "\r" "\n"
    if newline_style = "\r\n" then pyReplace s "\n" "\r\n" else s

/-- `EncodingService.decode_bytes`.  `decodeFn enc b` stands for
`b.decode(enc, errors=...)`, `none` being the raising outcome; the
newline style and the BOM flag are computed from the bytes alone. -/
def decode_bytes (decodeFn : String → List Nat → Option String)
    (data : List Nat) (encoding : String) : Option DecodedText :=
  let b := data
  let newline_style := detect_newline_style_bytes b
  let enc0 := if pyTrim encoding = "" then "utf-8" else pyTrim encoding
  let low := pyReplace (pyLower enc0) "_" "-"
  let enc :=
    if low = "utf-8-sig" ∨ low = "utf8-sig" then "utf-8-sig"
    else if low = "utf-16le" ∨ low = "utf16le" then "utf-16-le"
    else if low = "utf-16be" ∨ low = "utf16be" then "utf-16-be"
    else enc0
  let had_bom :=
    decide (BOM_UTF8.isPrefixOf b) ||
    (decide (BOM_UTF16_LE.isPrefixOf b) || decide (BOM_UTF16_BE.isPrefixOf b))
  (decodeFn enc b).map (fun txt => ⟨txt, newline_style, had_bom⟩)

/-- `EncodingService.encode_text`.  `encodeFn enc s` stands for
`s.encode(enc, errors=...)`. -/
def encode_text (encodeFn : String → String → List Nat)
    (text : String) (encoding : String)
    (newline_style : Option String) (add_bom : Bool) : List Nat :=
  let enc0 := if pyTrim encoding = "" then "utf-8" else pyTrim encoding
  let s0 := text
  let s := match newline_style with
    | some ns => if ns ≠ "" then normalize_newlines s0 ns else s0
    | none => s0
  let low0 := pyReplace (pyLower enc0) "_" "-"
  let isLE16 := low0 = "utf-16-le-bom" ∨ low0 = "utf16-le-bom" ∨
    low0 = "utf-16le-bom" ∨ low0 = "utf16le-bom"
  let isBE16 := low0 = "utf-16-be-bom" ∨ low0 = "utf16-be-bom" ∨
    low0 = "utf-16be-bom" ∨ low0 = "utf16be-bom"
  let isSig := low0 = "utf-8-sig" ∨ low0 = "utf8-sig"
  let enc := if isLE16 then "utf-16-le" else if isBE16 then "utf-16-be"
    else if isSig then "utf-8" else enc0
  let addBom := if isLE16 ∨ isBE16 ∨ isSig then true else add_bom
  let low := if isLE16 then "utf-16-le" else if isBE16 then "utf-16-be"
    else if isSig then "utf-8" else low0
  let data := encodeFn enc s
  if ¬ addBom then data
  else if low = "utf-8" ∨ low = "utf8" then BOM_UTF8 ++ data
  else if low = "utf-16" ∨ low = "utf16" then encodeFn "utf-16" s
  else if low = "utf-16-le" ∨ low = "utf16-le" ∨ low = "utf-16le" ∨ low = "utf16le" then
    BOM_UTF16_LE ++ data
  else if low = "utf-16-be" ∨ low = "utf16-be" ∨ low = "utf-16be" ∨ low = "utf16be" then
    BOM_UTF16_BE ++ data
  else data

/-- Byte sequence of one Unicode code point under UTF-8. -/
def utf8EncodeChar (n : Nat) : List Nat :=
  if n < 0x80 then [n]
  else if n < 0x800 then [0xC0 + n / 0x40, 0x80 + n % 0x40]
  else if n < 0x10000 then
    [0xE0 + n / 0x1000, 0x80 + (n / 0x40) % 0x40, 0x80 + n % 0x40]
  else
    [0xF0 + n / 0x40000, 0x80 + (n / 0x1000) % 0x40,
     0x80 + (n / 0x40) % 0x40, 0x80 + n % 0x40]

/-- `s.encode("utf-8")`: concrete UTF-8 encoder used to instantiate the
abstract codec parameter in witnesses. -/
def utf8Encode (s : String) : List Nat :=
  (s.data.map (fun c => utf8EncodeChar c.toNat)).flatten

/-! ## Entry records (`parsers/entries.py`) -/

/-- The slice of `EntryDict` built by `new_entry` that the status-boundary
property is about, plus the trailing `entry.update(extra)` payload.  The
`status` key cannot occur in `extra`: `status` is a named parameter of
`new_entry`, so Python binds any `status=` argument to the parameter. -/
structure EntryDict where
  original : String
  translation : String
  status : String
  extra : List (String × String)
deriving DecidableEq

/-- The four canonical status values of the spec. -/
def canonicalStatuses : List String :=
  ["untranslated", "in_progress", "translated", "reviewed"]

/-- `s.strip().lower().replace(' ', '_')` — the normalization applied by
`new_entry` before the legacy-spelling table. -/
def snakeLower (s : String) : String := pyReplace (pyLower (pyTrim s)) " " "_"

/-- The spellings `new_entry`'s normalization table recognizes. -/
def recognizedStatuses : List String :=
  ["untranslated", "not_translated", "in_progress", "inprogress",
   "translated", "done", "reviewed", "approved"]

/-- `parsers/entries.py::new_entry` (status as Python `str`; the
`isinstance`/exception branches of the source collapse to the string case
here). -/
def new_entry (original translation status : String)
    (extra : List (String × String) := []) : EntryDict :=
  let s := if status = "" then "untranslated" else status
  let s2 := snakeLower s
  let st :=
    if s2 = "untranslated" ∨ s2 = "not_translated" then "untranslated"
    else if s2 = "in_progress" ∨ s2 = "inprogress" then "in_progress"
    else if s2 = "translated" ∨ s2 = "done" then "translated"
    else if s2 = "reviewed" ∨ s2 = "approved" then "reviewed"
    else if s2 = "" then "untranslated"
    else s2
  ⟨original, translation, st, extra⟩

/-! ## ParserRegistry (`parsers/registry.py`) -/

/-- A registry-visible handler object: its id and which of the three
required operations are present *and callable* (the structural check of
`ParserRegistry.register`). -/
structure RegPlugin where
  plugin_id : String
  has_detect : Bool
  has_parse : Bool
  has_rebuild : Bool
deriving DecidableEq

/-- `RegisteredParser` of `parsers/registry.py`. -/
structure RegisteredParser where
  plugin : RegPlugin
  source : String
deriving DecidableEq

/-- The registry's `_by_id` dictionary. -/
abbrev RegState := List (String × RegisteredParser)

/-- `ParserRegistry._norm_id`. -/
def norm_id (pid : String) : String := pyLower (pyTrim pid)

/-- `ParserRegistry.register`.  The `None` argument and each failed
validation raise `ValueError` (the `.error` branches), all of which occur
before the `self._by_id[pid] = ...` assignment; the in-place `extensions`
normalization of the source is a mutation of the plugin object, not of the
id-to-handler mapping, and is wrapped in `try/except pass` so it cannot
raise. -/
def register (st : RegState) (plugin : Option RegPlugin) (source : String) :
    Except String RegState :=
  match plugin with
  | none => Except.error "plugin is required"
  | some p =>
    let pid := norm_id p.plugin_id
    if pid = "" then Except.error "Parser plugin_id is required"
    else if p.has_detect = false then
      Except.error ("Parser '" ++ pid ++ "' missing callable 'detect()'")
    else if p.has_parse = false then
      Except.error ("Parser '" ++ pid ++ "' missing callable 'parse()'")
    else if p.has_rebuild = false then
      Except.error ("Parser '" ++ pid ++ "' missing callable 'rebuild()'")
    else
      match dictGet st pid with
      | some existing =>
        if existing.source = "external" ∧ source ≠ "external" then Except.ok st
        else Except.ok (dictSet st pid ⟨p, source⟩)
      | none => Except.ok (dictSet st pid ⟨p, source⟩)

/-- `ParserRegistry.get`. -/
def reg_get (st : RegState) (plugin_id : String) : Option RegisteredParser :=
  dictGet st (norm_id plugin_id)

/-- A handler that passes every validation of `register`. -/
def validPlugin (p : RegPlugin) : Prop :=
  norm_id p.plugin_id ≠ "" ∧ p.has_detect = true ∧ p.has_parse = true ∧
    p.has_rebuild = true

instance (p : RegPlugin) : Decidable (validPlugin p) := by
  unfold validPlugin; infer_instance

/-! ## Autodetect (`parsers/autodetect.py`) -/

/-- A manager-provided plugin as `select_parser` sees it (duck-typed).
`exts = none` models `_plugin_exts_lower` raising (for instance the
`setattr` on a frozen dataclass); `detect = none` models `detect` (or its
attribute lookup) raising; `detect = some s` is the coerced
`float(p.detect(ctx, text) or 0.0)`. -/
structure UiPlugin where
  plugin_id : String
  exts : Option (List String)
  detect : Option ℚ
deriving DecidableEq

/-- `_plugin_exts_lower`: `{str(e).lower() for e in exts if e}` (as a list;
only membership is used). -/
def extsLowerOf (es : List String) : List String :=
  (es.filter (fun e => e ≠ "")).map pyLower

/-- One iteration of the `for p in plugins:` scan of `select_parser`:
extension pre-filter, then detect, keeping a strictly better score only;
any raising candidate leaves the accumulator unchanged (`except: continue`). -/
def scanStep (ext : String) (acc : Option UiPlugin × ℚ) (p : UiPlugin) :
    Option UiPlugin × ℚ :=
  match p.exts with
  | none => acc
  | some es =>
    let el := extsLowerOf es
    if el ≠ [] ∧ ext ∉ el then acc
    else match p.detect with
      | none => acc
      | some s => if acc.2 < s then (some p, s) else acc

/-- The whole candidate scan of `select_parser` (`best = None`,
`best_score = 0.0` initially). -/
def selectScan (ext : String) (plugins : List UiPlugin) : Option UiPlugin × ℚ :=
  plugins.foldl (scanStep ext) (none, 0)

/-- A plugin the scan actually considers for detection: its extension set is
readable, and it is empty or contains the file's lower-cased extension. -/
def eligiblePlugin (ext : String) (p : UiPlugin) : Bool :=
  match p.exts with
  | none => false
  | some es => decide (extsLowerOf es = [] ∨ ext ∈ extsLowerOf es)

/-- `sorted(pid for pid in (getattr(p, "plugin_id", "") for p in plugins) if pid)`. -/
def availableIds (plugins : List UiPlugin) : List String :=
  pySorted ((plugins.map (fun p => p.plugin_id)).filter (fun pid => pid ≠ ""))

/-- The `ParserError` message raised when nothing scores above zero. -/
def noParserMsg (file_path ext : String) (avail : List String) : String :=
  "Nenhum parser compatível foi detectado.\n\n" ++
  "Arquivo: " ++ file_path ++ "\n" ++
  "Extensão: " ++ (if ext = "" then "(sem extensão)" else ext) ++ "\n" ++
  "Parsers disponíveis: " ++
    (if avail = [] then "(nenhum)" else pyJoin ", " avail) ++
  "\n\nInstale parsers em Plugins → Parsers."

/-- `parsers/autodetect.py::select_parser`.  `mgrGet` stands for the
manager lookup the explicit-id path is written against
(`mgr.get(parser_id)`), `plugins` for `mgr.all_plugins()` in its iteration
order, and `projectParserId` for `project.get("parser_id") or ""`.  Note
the deployed `ParserManager` defines no attribute `get`, so against it the
explicit-id path raises instead of looking anything up — that deployed
composition is `selectParserDeployed` below; the empty-`parser_id` scan
path, which this abstraction shares with it, is the faithful one. -/
def selectParser (mgrGet : String → Option UiPlugin) (plugins : List UiPlugin)
    (projectParserId : String) (file_path : String) : Except String UiPlugin :=
  let pid := pyTrim projectParserId
  match (if pid ≠ "" then mgrGet pid else none) with
  | some p => Except.ok p
  | none =>
    let ext := pyLower (splitext file_path).2
    match selectScan ext plugins with
    | (some p, s) =>
      if 0 < s then Except.ok p
      else Except.error (noParserMsg file_path ext (availableIds plugins))
    | (none, _) => Except.error (noParserMsg file_path ext (availableIds plugins))

/-- Modelled from the spec (for comparison with the code, claim C1): the
spec's §4.3/§4.6 iteration order — `ParserRegistry.all()`, handlers sorted
with external sources first, then lexicographically by id.  For the
manager-produced candidate list (which carries no source tag) this is the
lexicographic order by `plugin_id`.  Insertion step of that sort. -/
def insById (x : UiPlugin) : List UiPlugin → List UiPlugin
  | [] => [x]
  | y :: ys => if pyStrLe x.plugin_id y.plugin_id then x :: y :: ys else y :: insById x ys

/-- Modelled from the spec (for comparison with the code, claim C1): the
spec's §4.3/§4.6 candidate ordering, `ParserRegistry.all()` — external
sources first, then lexicographic by id (source tags being absent from the
manager's plugin records, the order is lexicographic by `plugin_id`). -/
def registryAllOrder (plugins : List UiPlugin) : List UiPlugin :=
  plugins.foldr insById []

/-- Modelled from the spec (for comparison with the code, claim C1):
`select_parser` as the claim describes it, scanning the candidates in
`ParserRegistry.all()` order. -/
def selectParserClaimed (mgrGet : String → Option UiPlugin)
    (plugins : List UiPlugin) (projectParserId : String) (file_path : String) :
    Except String UiPlugin :=
  selectParser mgrGet (registryAllOrder plugins) projectParserId file_path

/-- The Python exception kinds the deployed selection paths can raise. -/
inductive PyError where
  | attributeError (msg : String)
  | typeError (msg : String)
  | parserError (msg : String)
deriving DecidableEq

/-- `parsers/autodetect.py::select_parser` as deployed against the actual
`ParserManager` of `parsers/manager.py` (the object `get_parser_manager()`
returns).  `ParserManager` defines no attribute `get` (only `get_parser`),
so on a non-empty project `parser_id` the body's `p = mgr.get(parser_id)`
raises `AttributeError`, which nothing in `select_parser` catches; only
the empty-`parser_id` autodetect scan is reachable. -/
def selectParserDeployed (plugins : List UiPlugin)
    (projectParserId : String) (file_path : String) : Except PyError UiPlugin :=
  let pid := pyTrim projectParserId
  if pid ≠ "" then
    Except.error
      (PyError.attributeError "'ParserManager' object has no attribute 'get'")
  else
    let ext := pyLower (splitext file_path).2
    match selectScan ext plugins with
    | (some p, s) =>
      if 0 < s then Except.ok p
      else Except.error
        (PyError.parserError (noParserMsg file_path ext (availableIds plugins)))
    | (none, _) =>
      Except.error
        (PyError.parserError (noParserMsg file_path ext (availableIds plugins)))

/-- The parameter names of `select_parser(project, file_path, text)`. -/
def selectParserParams : List String := ["project", "file_path", "text"]

/-- A Python call to `select_parser` carrying the given keyword-argument
names: a keyword that is not among the target's parameters raises
`TypeError` at call binding, before the body runs; `body` stands for
whatever the call would return were the binding to succeed. -/
def callSelectParser (kwNames : List String)
    (body : Except PyError UiPlugin) : Except PyError UiPlugin :=
  if kwNames.all (fun k => selectParserParams.contains k) then body
  else Except.error (PyError.typeError
    "select_parser() got an unexpected keyword argument 'parser_id'")

/-- `views/main_window_parts/parser_utils.py::
ParserUtilsMixin._select_parser_with_fallback`: the exact-id attempt and
the base-segment retry each call `select_parser(ctx, text, parser_id=...)`
inside `try/except Exception: pass`; the final autodetect attempt calls
`select_parser(ctx, text, parser_id=None)` with no handler around it.
All three calls carry the keyword `parser_id` (the `parser_id=None` call
included).  The `None`-or-empty `parser_id` argument is modelled as `""`
(both are falsy under `if parser_id:`). -/
def select_parser_with_fallback (parser_id : String)
    (bodyExact bodyBase bodyAuto : Except PyError UiPlugin) :
    Except PyError UiPlugin :=
  if parser_id ≠ "" then
    match callSelectParser ["parser_id"] bodyExact with
    | Except.ok p => Except.ok p
    | Except.error _ =>
      if parser_id.data.contains '.' then
        match callSelectParser ["parser_id"] bodyBase with
        | Except.ok p => Except.ok p
        | Except.error _ => callSelectParser ["parser_id"] bodyAuto
      else callSelectParser ["parser_id"] bodyAuto
  else callSelectParser ["parser_id"] bodyAuto

/-! ## Repository / distribution (`parsers/repository.py`) -/

/-- One entry of the manifest's `items` array (`folder`, `id`, `sha256`;
absent keys are the empty string, as in `it.get(...) or ""`).  Non-dict
items, which the source skips with `isinstance`, are outside this type. -/
structure ManifestItem where
  folder : String
  id : String
  sha256 : String
deriving DecidableEq

/-- The integrity-error message of `_build_repo_from_manifest`. -/
def shaErrMsg (name expected got : String) : String :=
  "SHA256 inválido para '" ++ name ++ "'.\n" ++
  "Esperado: " ++ expected ++ "\n" ++
  "Obtido:   " ++ got

/-- The missing-plugin message of `_build_repo_from_manifest`. -/
def missingPluginMsg (folder : String) : String :=
  "Manifest aponta para '" ++ folder ++ "', mas plugin.py não existe."

/-- The `for it in items:` loop of `_build_repo_from_manifest`.  `hash`
stands for `_sha256_file` (hex digest of the given `plugin.py` bytes),
`root folder` for the bytes of `plugins_root/<folder>/plugin.py` when that
file exists.  The accumulator is the staging directory being built
(`built_repo`), `n` the `installed` counter. -/
def buildItems (hash : List Nat → String) (root : String → Option (List Nat)) :
    List ManifestItem → List (String × List Nat) → Nat →
    Except String (List (String × List Nat) × Nat)
  | [], acc, n => Except.ok (acc, n)
  | it :: rest, acc, n =>
    let folder := pyTrim it.folder
    let pid := pyTrim it.id
    let sha := pyLower (pyTrim it.sha256)
    if folder = "" then buildItems hash root rest acc n
    else
      match root folder with
      | none => Except.error (missingPluginMsg folder)
      | some content =>
        let got := hash content
        if sha ≠ "" ∧ pyLower got ≠ sha then
          Except.error (shaErrMsg (if pid = "" then folder else pid) sha got)
        else buildItems hash root rest (dictSet acc folder content) (n + 1)

/-- `_build_repo_from_manifest` without the staging-directory plumbing:
run the item loop, then reject an empty install set. -/
def buildRepoFromManifest (hash : List Nat → String)
    (root : String → Option (List Nat)) (items : List ManifestItem) :
    Except String (List (String × List Nat)) :=
  match buildItems hash root items [] 0 with
  | Except.error e => Except.error e
  | Except.ok (acc, n) =>
    if n = 0 then Except.error "Manifest não instalou nada (items vazio ou inválido)."
    else Except.ok acc

/-- The manifest path of `install_from_github_zip`: build the staging repo,
then `_atomic_replace_dir` swaps it over the live directory only on success;
any raise leaves the live directory untouched. -/
def installFromManifest (hash : List Nat → String)
    (root : String → Option (List Nat)) (items : List ManifestItem)
    (live : List (String × List Nat)) :
    Except String Unit × List (String × List Nat) :=
  match buildRepoFromManifest hash root items with
  | Except.ok repo => (Except.ok (), repo)
  | Except.error e => (Except.error e, live)

/-! ## File-open decode path (`services/file_ops_service.py::open_file`) -/

/-- The encoding-relevant state the open path records on the created tab
(`tab.input_encoding`, `tab.newline_style`, `tab.had_bom`; the context's
`encoding` field is the same `chosen` value). -/
structure OpenTab where
  encoding : String
  newline_style : String
  had_bom : Bool
  text : String
deriving DecidableEq

/-- `hint_encoding`: `(project.get("encoding") or "utf-8").strip() or
"utf-8"`, then the `"auto"` rewrite. -/
def normHint (projectEncoding : String) : String :=
  let h0 := if projectEncoding = "" then "utf-8" else projectEncoding
  let h1 := if pyTrim h0 = "" then "utf-8" else pyTrim h0
  if pyLower h1 = "auto" then "utf-8" else h1

/-- The BOM heuristics block (`bom_first`). -/
def bomFirst (raw : List Nat) : List String :=
  if BOM_UTF8.isPrefixOf raw then ["utf-8-sig"]
  else if BOM_UTF16_LE.isPrefixOf raw ∨ BOM_UTF16_BE.isPrefixOf raw then ["utf-16"]
  else []

/-- The `candidates` list: previously recorded state encoding, BOM-implied
encoding, project hint, regional fallbacks — stripped, empties dropped,
duplicates removed with order preserved. -/
def buildCandidates (stateEncoding hint : String) (raw : List Nat) : List String :=
  ([stateEncoding] ++ bomFirst raw ++
    [hint, "utf-8", "utf-8-sig", "cp932", "shift_jis", "windows-1252"]).foldl
    (fun acc e =>
      let e := pyTrim e
      if e ≠ "" ∧ e ∉ acc then acc ++ [e] else acc) []

/-- `chosen`: the first candidate whose strict decode succeeds, else the
project hint.  `strictDec enc raw` stands for
`raw.decode(enc, errors="strict")`. -/
def chosenEncoding (strictDec : String → List Nat → Option String)
    (stateEncoding hint : String) (raw : List Nat) : String :=
  ((buildCandidates stateEncoding hint raw).find?
    (fun e => (strictDec e raw).isSome)).getD hint

/-- The decode segment of `open_file` (lines 49–131): pick the encoding,
decode with `errors="replace"`, record everything on the tab.  The
`.error` branch is the caught-and-reported path (`QMessageBox` + `return`)
— the exception does not propagate. -/
def openFileDecode (strictDec replaceDec : String → List Nat → Option String)
    (stateEncodingRaw projectEncoding : String) (raw : List Nat) :
    Except String OpenTab :=
  let hint := normHint projectEncoding
  let stateEncoding := pyTrim stateEncodingRaw
  let chosen := chosenEncoding strictDec stateEncoding hint raw
  match decode_bytes replaceDec raw chosen with
  | none => Except.error "Falha ao decodificar arquivo"
  | some d => Except.ok ⟨chosen, d.newline_style, d.had_bom, d.text⟩

/-! ## Helper lemmas -/

theorem dictGet_dictSet_self {α : Type} (st : List (String × α)) (k : String) (v : α) :
    dictGet (dictSet st k v) k = some v := by
  induction st with
  | nil => simp [dictSet, dictGet]
  | cons kv rest ih =>
    by_cases h : kv.1 = k <;> simp [dictSet, dictGet, h, ih]

theorem dictGet_dictSet_ne {α : Type} (st : List (String × α)) (k k' : String) (v : α)
    (h : k' ≠ k) : dictGet (dictSet st k v) k' = dictGet st k' := by
  induction st with
  | nil => simp [dictSet, dictGet, Ne.symm h]
  | cons kv rest ih =>
    by_cases hk : kv.1 = k
    · subst hk
      simp [dictSet, dictGet, Ne.symm h]
    · simp [dictSet, dictGet, hk, ih]

theorem register_valid_none (st : RegState) (p : RegPlugin) (src : String)
    (hv : validPlugin p) (hg : dictGet st (norm_id p.plugin_id) = none) :
    register st (some p) src =
      Except.ok (dictSet st (norm_id p.plugin_id) ⟨p, src⟩) := by
  obtain ⟨h1, h2, h3, h4⟩ := hv
  simp [register, h1, h2, h3, h4, hg]

theorem register_valid_some (st : RegState) (p : RegPlugin) (src : String)
    (ex : RegisteredParser) (hv : validPlugin p)
    (hg : dictGet st (norm_id p.plugin_id) = some ex) :
    register st (some p) src =
      (if ex.source = "external" ∧ src ≠ "external" then Except.ok st
       else Except.ok (dictSet st (norm_id p.plugin_id) ⟨p, src⟩)) := by
  obtain ⟨h1, h2, h3, h4⟩ := hv
  simp [register, h1, h2, h3, h4, hg]

theorem register_external_of_valid (st : RegState) (p : RegPlugin)
    (hv : validPlugin p) :
    register st (some p) "external" =
      Except.ok (dictSet st (norm_id p.plugin_id) ⟨p, "external"⟩) := by
  cases hg : dictGet st (norm_id p.plugin_id) with
  | none => exact register_valid_none st p "external" hv hg
  | some ex =>
    rw [register_valid_some st p "external" ex hv hg]
    simp

theorem register_invalid (st : RegState) (p : RegPlugin) (src : String)
    (hv : ¬ validPlugin p) : ∃ e, register st (some p) src = Except.error e := by
  by_cases h1 : norm_id p.plugin_id = ""
  · exact ⟨"Parser plugin_id is required", by simp [register, h1]⟩
  · by_cases h2 : p.has_detect = false
    · exact ⟨"Parser '" ++ norm_id p.plugin_id ++ "' missing callable 'detect()'",
        by simp [register, h1, h2]⟩
    · by_cases h3 : p.has_parse = false
      · exact ⟨"Parser '" ++ norm_id p.plugin_id ++ "' missing callable 'parse()'",
          by simp [register, h1, h2, h3]⟩
      · by_cases h4 : p.has_rebuild = false
        · exact ⟨"Parser '" ++ norm_id p.plugin_id ++ "' missing callable 'rebuild()'",
            by simp [register, h1, h2, h3, h4]⟩
        · exact absurd ⟨h1, by simpa using h2, by simpa using h3, by simpa using h4⟩ hv

/-! ## Claim C2 -/

/-- C2: per normalized `plugin_id`, an external registration overwrites a
prior builtin one, a later external overwrites an earlier external (last
wins), and a builtin registration never overwrites an existing external
one — from any prior registry state. -/
theorem C2_registry_conflict_rules (st : RegState) (h1 h2 : RegPlugin)
    (hv1 : validPlugin h1) (hv2 : validPlugin h2)
    (hid : norm_id h1.plugin_id = norm_id h2.plugin_id) :
    (∀ st1 st2, register st (some h1) "builtin" = Except.ok st1 →
       register st1 (some h2) "external" = Except.ok st2 →
       reg_get st2 h1.plugin_id = some ⟨h2, "external"⟩)
    ∧ (∀ st1 st2, register st (some h1) "external" = Except.ok st1 →
       register st1 (some h2) "builtin" = Except.ok st2 →
       reg_get st2 h1.plugin_id = some ⟨h1, "external"⟩)
    ∧ (∀ st1 st2, register st (some h1) "external" = Except.ok st1 →
       register st1 (some h2) "external" = Except.ok st2 →
       reg_get st2 h1.plugin_id = some ⟨h2, "external"⟩)
    ∧ (∀ r, dictGet st (norm_id h1.plugin_id) = some r → r.source = "external" →
       register st (some h1) "builtin" = Except.ok st) := by
  refine ⟨?_, ?_, ?_, ?_⟩
  · intro st1 st2 e1 e2
    rw [register_external_of_valid st1 h2 hv2] at e2
    cases e2
    unfold reg_get
    rw [hid, dictGet_dictSet_self]
  · intro st1 st2 e1 e2
    rw [register_external_of_valid st h1 hv1] at e1
    cases e1
    have hg : dictGet (dictSet st (norm_id h1.plugin_id) ⟨h1, "external"⟩)
        (norm_id h2.plugin_id) = some ⟨h1, "external"⟩ := by
      rw [← hid, dictGet_dictSet_self]
    rw [register_valid_some _ h2 "builtin" _ hv2 hg] at e2
    simp only [if_pos (by exact ⟨rfl, by decide⟩ :
      (RegisteredParser.mk h1 "external").source = "external" ∧
        ("builtin" : String) ≠ "external")] at e2
    cases e2
    unfold reg_get
    rw [dictGet_dictSet_self]
  · intro st1 st2 e1 e2
    rw [register_external_of_valid st h1 hv1] at e1
    cases e1
    rw [register_external_of_valid _ h2 hv2] at e2
    cases e2
    unfold reg_get
    rw [hid, dictGet_dictSet_self]
  · intro r hr hsrc
    rw [register_valid_some st h1 "builtin" r hv1 hr]
    simp [hsrc]

/-- Witness for C2 at a concrete pair of handlers whose ids normalize to
`"x"`. -/
theorem C2_registry_conflict_rules_w :
    reg_get [("x", ⟨⟨"X", true, true, true⟩, "external"⟩)] "x"
      = some ⟨⟨"X", true, true, true⟩, "external"⟩ :=
  (C2_registry_conflict_rules [] ⟨"x", true, true, true⟩ ⟨"X", true, true, true⟩
      (by decide) (by decide) (by decide)).1
    [("x", ⟨⟨"x", true, true, true⟩, "builtin"⟩)]
    [("x", ⟨⟨"X", true, true, true⟩, "external"⟩)] (by rfl) (by rfl)

/-! ## Claim C10 -/

/-- C10: `ParserRegistry.register` is atomic on the id-to-handler mapping.
It raises exactly when the plugin is `None`, its normalized id is empty, or
one of `detect`/`parse`/`rebuild` is missing or not callable (all checks
precede the `self._by_id[pid] = ...` assignment, so a raising call leaves
the mapping — the `dictGet` view — exactly as it was); on success it
installs or replaces exactly the entry at the normalized id, every other
key reading as before. -/
theorem C10_register_atomic (st : RegState) (pl : Option RegPlugin) (src : String) :
    ((∃ e, register st pl src = Except.error e) ↔
      pl = none ∨ ∃ p, pl = some p ∧ ¬ validPlugin p)
    ∧ (∀ st', register st pl src = Except.ok st' →
        ∃ p, pl = some p ∧ validPlugin p ∧
          (∀ k, k ≠ norm_id p.plugin_id → dictGet st' k = dictGet st k) ∧
          (dictGet st' (norm_id p.plugin_id) = some ⟨p, src⟩ ∨ st' = st)) := by
  cases pl with
  | none => simp [register]
  | some p =>
    by_cases hv : validPlugin p
    · constructor
      · constructor
        · intro ⟨e, he⟩
          cases hg : dictGet st (norm_id p.plugin_id) with
          | none => rw [register_valid_none st p src hv hg] at he; cases he
          | some ex =>
            rw [register_valid_some st p src ex hv hg] at he
            by_cases hc : ex.source = "external" ∧ src ≠ "external" <;>
              simp [hc] at he
        · intro hcon
          rcases hcon with hn | ⟨q, hq, hnv⟩
          · cases hn
          · cases hq; exact absurd hv hnv
      · intro st' hok
        refine ⟨p, rfl, hv, ?_⟩
        cases hg : dictGet st (norm_id p.plugin_id) with
        | none =>
          rw [register_valid_none st p src hv hg] at hok
          cases hok
          exact ⟨fun k hk => dictGet_dictSet_ne st (norm_id p.plugin_id) k _ hk,
            Or.inl (dictGet_dictSet_self ..)⟩
        | some ex =>
          rw [register_valid_some st p src ex hv hg] at hok
          by_cases hc : ex.source = "external" ∧ src ≠ "external"
          · rw [if_pos hc] at hok
            cases hok
            exact ⟨fun k _ => rfl, Or.inr rfl⟩
          · rw [if_neg hc] at hok
            cases hok
            exact ⟨fun k hk => dictGet_dictSet_ne st (norm_id p.plugin_id) k _ hk,
              Or.inl (dictGet_dictSet_self ..)⟩
    · constructor
      · constructor
        · intro _; exact Or.inr ⟨p, rfl, hv⟩
        · intro _; exact register_invalid st p src hv
      · intro st' hok
        exfalso
        obtain ⟨e, he⟩ := register_invalid st p src hv
        rw [he] at hok
        exact Except.noConfusion hok

/-- Witness for C10: a handler with an empty id is rejected. -/
theorem C10_register_atomic_w :
    ∃ e, register [] (some ⟨"  ", true, true, true⟩) "builtin" = Except.error e :=
  (C10_register_atomic [] (some ⟨"  ", true, true, true⟩) "builtin").1.mpr
    (Or.inr ⟨⟨"  ", true, true, true⟩, rfl, by decide⟩)

/-! ## Selector lemmas -/

theorem scanStep_skip (ext : String) (acc : Option UiPlugin × ℚ) (p : UiPlugin)
    (h : p.exts = none ∨ p.detect = none) : scanStep ext acc p = acc := by
  rcases h with h | h
  · simp [scanStep, h]
  · cases hx : p.exts with
    | none => simp [scanStep, hx]
    | some es => simp [scanStep, hx, h]

theorem scanStep_ineligible (ext : String) (acc : Option UiPlugin × ℚ)
    (p : UiPlugin) (h : eligiblePlugin ext p = false) : scanStep ext acc p = acc := by
  cases hx : p.exts with
  | none => simp [scanStep, hx]
  | some es =>
    have hc : ¬ (extsLowerOf es = [] ∨ ext ∈ extsLowerOf es) := by
      simpa [eligiblePlugin, hx] using h
    push_neg at hc
    simp [scanStep, hx, if_pos (And.intro hc.1 hc.2)]

theorem scanStep_eligible (ext : String) (acc : Option UiPlugin × ℚ)
    (p : UiPlugin) (s : ℚ) (he : eligiblePlugin ext p = true)
    (hd : p.detect = some s) :
    scanStep ext acc p = if acc.2 < s then (some p, s) else acc := by
  cases hx : p.exts with
  | none => simp [eligiblePlugin, hx] at he
  | some es =>
    have hc : extsLowerOf es = [] ∨ ext ∈ extsLowerOf es := by
      simpa [eligiblePlugin, hx] using he
    have hcond : ¬ (extsLowerOf es ≠ [] ∧ ext ∉ extsLowerOf es) := by tauto
    simp [scanStep, hx, hd, if_neg hcond]

theorem selectScan_filter (ext : String) (ps : List UiPlugin) :
    selectScan ext ps = selectScan ext (ps.filter (eligiblePlugin ext)) := by
  suffices h : ∀ acc, ps.foldl (scanStep ext) acc
      = (ps.filter (eligiblePlugin ext)).foldl (scanStep ext) acc from h _
  induction ps with
  | nil => intro acc; rfl
  | cons p rest ih =>
    intro acc
    by_cases hp : eligiblePlugin ext p = true
    · simp only [List.filter_cons, hp, if_true, List.foldl_cons]
      exact ih _
    · have hf : eligiblePlugin ext p = false := by simpa using hp
      simp only [List.filter_cons, hf, Bool.false_eq_true, if_false, List.foldl_cons,
        scanStep_ineligible ext acc p hf]
      exact ih _

theorem selectScan_append_one (ext : String) (ps : List UiPlugin) (q : UiPlugin) :
    selectScan ext (ps ++ [q]) = scanStep ext (selectScan ext ps) q := by
  simp [selectScan, List.foldl_append]

theorem selectScan_middle_skip (ext : String) (l1 l2 : List UiPlugin)
    (bad : UiPlugin) (h : bad.exts = none ∨ bad.detect = none) :
    selectScan ext (l1 ++ bad :: l2) = selectScan ext (l1 ++ l2) := by
  simp [selectScan, List.foldl_append, List.foldl_cons,
    scanStep_skip ext _ bad h]

/-! ## String-containment lemmas for error messages -/

theorem strInfix_piece (a x c : String) : x.data <:+: (a ++ x ++ c).data :=
  ⟨a.data, c.data, by simp [String.data_append]⟩

theorem mem_sortedInsert (x y : String) (l : List String) :
    y ∈ sortedInsert x l ↔ y = x ∨ y ∈ l := by
  induction l with
  | nil => simp [sortedInsert]
  | cons z zs ih =>
    by_cases h : pyStrLe x z = true
    · simp [sortedInsert, h]
    · simp only [sortedInsert, if_neg h, List.mem_cons, ih]
      tauto

theorem mem_pySorted (x : String) (l : List String) : x ∈ pySorted l ↔ x ∈ l := by
  induction l with
  | nil => simp [pySorted]
  | cons y ys ih =>
    simp only [pySorted, List.foldr_cons] at ih ⊢
    rw [mem_sortedInsert, ih, List.mem_cons]

theorem strInfix_pyJoin (sep : String) (l : List String) (x : String)
    (h : x ∈ l) : x.data <:+: (pyJoin sep l).data := by
  induction l with
  | nil => cases h
  | cons y ys ih =>
    cases ys with
    | nil =>
      rw [List.mem_singleton] at h
      subst h
      exact ⟨[], [], by simp [pyJoin]⟩
    | cons z zs =>
      rcases List.mem_cons.mp h with rfl | h
      · exact ⟨[], (sep ++ pyJoin sep (z :: zs)).data, by simp [pyJoin, String.data_append]⟩
      · exact (ih h).trans
          ⟨(y ++ sep).data, [], by simp [pyJoin, String.data_append]⟩

theorem mem_availableIds (ps : List UiPlugin) (p : UiPlugin)
    (hp : p ∈ ps) (hne : p.plugin_id ≠ "") : p.plugin_id ∈ availableIds ps := by
  rw [availableIds, mem_pySorted, List.mem_filter]
  exact ⟨List.mem_map_of_mem _ hp, by simpa using hne⟩

theorem noParserMsg_parts (fp extd : String) (avail : List String) :
    fp.data <:+: (noParserMsg fp extd avail).data
    ∧ ((if extd = "" then "(sem extensão)" else extd) : String).data <:+:
        (noParserMsg fp extd avail).data
    ∧ ∀ x ∈ avail, x.data <:+: (noParserMsg fp extd avail).data := by
  refine ⟨?_, ?_, ?_⟩
  · exact ⟨("Nenhum parser compatível foi detectado.\n\n" ++ "Arquivo: ").data,
      ("\n" ++ "Extensão: " ++ (if extd = "" then "(sem extensão)" else extd) ++ "\n" ++
        "Parsers disponíveis: " ++
        (if avail = [] then "(nenhum)" else pyJoin ", " avail) ++
        "\n\nInstale parsers em Plugins → Parsers.").data,
      by simp [noParserMsg, String.data_append]⟩
  · exact ⟨("Nenhum parser compatível foi detectado.\n\n" ++ "Arquivo: " ++ fp ++ "\n" ++
        "Extensão: ").data,
      ("\n" ++ "Parsers disponíveis: " ++
        (if avail = [] then "(nenhum)" else pyJoin ", " avail) ++
        "\n\nInstale parsers em Plugins → Parsers.").data,
      by simp [noParserMsg, String.data_append]⟩
  · intro x hx
    have hne : avail ≠ [] := by rintro rfl; cases hx
    refine (strInfix_pyJoin ", " avail x hx).trans
      ⟨("Nenhum parser compatível foi detectado.\n\n" ++ "Arquivo: " ++ fp ++ "\n" ++
        "Extensão: " ++ (if extd = "" then "(sem extensão)" else extd) ++ "\n" ++
        "Parsers disponíveis: ").data,
      ("\n\nInstale parsers em Plugins → Parsers.").data,
      by simp [noParserMsg, String.data_append, if_neg hne]⟩

/-! ## Claim C1 -/

/-- C1 (counterexample): the claim's iteration order is wrong for the code.
`select_parser` scans `mgr.all_plugins()` in the manager's backend listing
order, not in `ParserRegistry.all()` order: with the candidate list
`[b, a]` (a legal `list_engines()` order), both eligible everywhere and
scoring the same positive value, the code returns `b`, while scanning in
the claimed `ParserRegistry.all()` order (lexicographic by id) returns
`a`. -/
theorem C1_select_parser_counterexample :
    selectParser (fun _ => none) [⟨"b", some [], some 1⟩, ⟨"a", some [], some 1⟩]
      "" "f.txt" = Except.ok ⟨"b", some [], some 1⟩
    ∧ selectParserClaimed (fun _ => none)
        [⟨"b", some [], some 1⟩, ⟨"a", some [], some 1⟩] "" "f.txt"
      = Except.ok ⟨"a", some [], some 1⟩
    ∧ (⟨"b", some [], some 1⟩ : UiPlugin) ≠ ⟨"a", some [], some 1⟩ :=
  ⟨rfl, rfl, by decide⟩

/-- C1 (amended): with no usable `parser_id`, `select_parser` considers
exactly the loaded handlers whose (readable) declared extension set is
empty or contains the file's lower-cased extension, scanning them in the
manager's `all_plugins()` iteration order — not `ParserRegistry.all()`
order; a candidate replaces the current best only with a strictly greater
score (an equal score never replaces it), and a positive best is
returned.  Determinism follows: the result is a function of the manager
state and the scores. -/
theorem C1_select_parser_scan (g : String → Option UiPlugin)
    (pid fp ext : String) (ps : List UiPlugin) (q : UiPlugin) (s : ℚ)
    (hext : ext = pyLower (splitext fp).2)
    (hpid : pyTrim pid = "" ∨ g (pyTrim pid) = none) :
    selectScan ext ps = selectScan ext (ps.filter (eligiblePlugin ext))
    ∧ (eligiblePlugin ext q = true → q.detect = some s →
        ((selectScan ext ps).2 < s → selectScan ext (ps ++ [q]) = (some q, s))
        ∧ (s ≤ (selectScan ext ps).2 →
            selectScan ext (ps ++ [q]) = selectScan ext ps))
    ∧ (∀ p t, selectScan ext ps = (some p, t) → 0 < t →
        selectParser g ps pid fp = Except.ok p) := by
  refine ⟨selectScan_filter ext ps, ?_, ?_⟩
  · intro he hd
    constructor
    · intro hlt
      rw [selectScan_append_one, scanStep_eligible ext _ q s he hd, if_pos hlt]
    · intro hle
      rw [selectScan_append_one, scanStep_eligible ext _ q s he hd,
        if_neg (not_lt.mpr hle)]
  · intro p t hscan ht
    have hscan' : selectScan (pyLower (splitext fp).2) ps = (some p, t) :=
      hext ▸ hscan
    rcases hpid with h | h
    · simp [selectParser, h, hscan', ht]
    · by_cases h0 : pyTrim pid = ""
      · simp [selectParser, h0, hscan', ht]
      · simp [selectParser, h0, h, hscan', ht]

/-- Witness for C1's amended theorem at a one-handler manager state. -/
theorem C1_select_parser_scan_w :
    selectParser (fun _ => none) [⟨"x", some [], some 1⟩] "" "a.ks"
      = Except.ok ⟨"x", some [], some 1⟩ :=
  (C1_select_parser_scan (fun _ => none) "" "a.ks" ".ks"
      [⟨"x", some [], some 1⟩] ⟨"x", some [], some 1⟩ 1
      (by decide) (Or.inl (by decide))).2.2
    ⟨"x", some [], some 1⟩ 1 (by rfl) (by norm_num)

/-! ## Claim C8 -/

/-- C8: when no candidate scores strictly above zero, `select_parser`
raises `ParserError` instead of returning a handler, and the message
enumerates every loaded non-empty `plugin_id`, the file path, and the
file's extension (or the explicit `(sem extensão)` placeholder). -/
theorem C8_no_parser_error (g : String → Option UiPlugin) (pid fp : String)
    (ps : List UiPlugin)
    (hpid : pyTrim pid = "" ∨ g (pyTrim pid) = none)
    (hscan : (selectScan (pyLower (splitext fp).2) ps).1 = none
      ∨ (selectScan (pyLower (splitext fp).2) ps).2 ≤ 0) :
    selectParser g ps pid fp
      = Except.error
          (noParserMsg fp (pyLower (splitext fp).2) (availableIds ps))
    ∧ (∀ p ∈ ps, p.plugin_id ≠ "" →
        p.plugin_id.data <:+:
          (noParserMsg fp (pyLower (splitext fp).2) (availableIds ps)).data)
    ∧ fp.data <:+:
        (noParserMsg fp (pyLower (splitext fp).2) (availableIds ps)).data
    ∧ (pyLower (splitext fp).2 = "" →
        ("(sem extensão)" : String).data <:+:
          (noParserMsg fp (pyLower (splitext fp).2) (availableIds ps)).data)
    ∧ (pyLower (splitext fp).2 ≠ "" →
        (pyLower (splitext fp).2).data <:+:
          (noParserMsg fp (pyLower (splitext fp).2) (availableIds ps)).data) := by
  obtain ⟨hfp, hextd, havail⟩ :=
    noParserMsg_parts fp (pyLower (splitext fp).2) (availableIds ps)
  refine ⟨?_, ?_, hfp, ?_, ?_⟩
  · rcases hps : selectScan (pyLower (splitext fp).2) ps with ⟨b, sc⟩
    cases b with
    | none =>
      rcases hpid with h | h
      · simp [selectParser, h, hps]
      · by_cases h0 : pyTrim pid = ""
        · simp [selectParser, h0, hps]
        · simp [selectParser, h0, h, hps]
    | some pbest =>
      have hle : sc ≤ 0 := by
        rcases hscan with h | h
        · rw [hps] at h; cases h
        · rwa [hps] at h
      have hnot : ¬ (0 < sc) := not_lt.mpr hle
      rcases hpid with h | h
      · simp [selectParser, h, hps, hnot]
      · by_cases h0 : pyTrim pid = ""
        · simp [selectParser, h0, hps, hnot]
        · simp [selectParser, h0, h, hps, hnot]
  · intro p hp hne
    exact havail p.plugin_id (mem_availableIds ps p hp hne)
  · intro he
    have := hextd
    rwa [if_pos he] at this
  · intro he
    have := hextd
    rwa [if_neg he] at this

/-- Witness for C8: a lone handler that raises on detect scores nothing,
and the error text carries its id, the path and the extension. -/
theorem C8_no_parser_error_w :
    selectParser (fun _ => none) [⟨"kirikiri.ks", some [], none⟩] "" "a.ks"
      = Except.error (noParserMsg "a.ks" ".ks" ["kirikiri.ks"])
    ∧ ("kirikiri.ks" : String).data <:+: (noParserMsg "a.ks" ".ks" ["kirikiri.ks"]).data := by
  have h := C8_no_parser_error (fun _ => none) "" "a.ks"
    [⟨"kirikiri.ks", some [], none⟩] (Or.inl (by decide)) (Or.inl (by rfl))
  refine ⟨?_, ?_⟩
  · have h1 := h.1
    simpa using h1
  · have h2 := h.2.1 ⟨"kirikiri.ks", some [], none⟩ (by simp) (by decide)
    simpa using h2

/-! ## Claim C9 -/

/-- C9: a candidate whose extension lookup or `detect` raises is skipped
and the scan continues — the selection outcome on the success path is
exactly the outcome without that candidate, so another candidate with a
positive score is still found and returned. -/
theorem C9_raising_candidate_skipped (g : String → Option UiPlugin)
    (pid fp : String) (l1 l2 : List UiPlugin) (bad : UiPlugin)
    (h : bad.exts = none ∨ bad.detect = none) :
    (∀ ext, selectScan ext (l1 ++ bad :: l2) = selectScan ext (l1 ++ l2))
    ∧ ∀ p, selectParser g (l1 ++ bad :: l2) pid fp = Except.ok p ↔
        selectParser g (l1 ++ l2) pid fp = Except.ok p := by
  have hsc : ∀ ext, selectScan ext (l1 ++ bad :: l2) = selectScan ext (l1 ++ l2) :=
    fun ext => selectScan_middle_skip ext l1 l2 bad h
  refine ⟨hsc, ?_⟩
  intro p
  cases hg : (if pyTrim pid ≠ "" then g (pyTrim pid) else none) with
  | some q =>
    constructor
    · intro hok
      simp only [selectParser, hg] at hok ⊢
      exact hok
    · intro hok
      simp only [selectParser, hg] at hok ⊢
      exact hok
  | none =>
    have hrw := hsc (pyLower (splitext fp).2)
    rcases hps : selectScan (pyLower (splitext fp).2) (l1 ++ l2) with ⟨b, sc⟩
    rw [hps] at hrw
    cases b with
    | none => simp [selectParser, hg, hps, hrw]
    | some pbest =>
      by_cases h0 : 0 < sc <;> simp [selectParser, hg, hps, hrw, h0]

/-- Witness for C9: a raising candidate in front of a scoring one does not
change the selected handler. -/
theorem C9_raising_candidate_skipped_w :
    selectParser (fun _ => none)
      ([] ++ (⟨"bad", none, none⟩ : UiPlugin) :: [⟨"good", some [], some 1⟩])
      "" "a.ks" = Except.ok ⟨"good", some [], some 1⟩ :=
  (C9_raising_candidate_skipped (fun _ => none) "" "a.ks" []
      [⟨"good", some [], some 1⟩] ⟨"bad", none, none⟩ (Or.inl rfl)).2
    ⟨"good", some [], some 1⟩ |>.mpr (by rfl)

theorem decode_bytes_ok_fields (decodeFn : String → List Nat → Option String)
    (data : List Nat) (encoding : String) (d : DecodedText)
    (hd : decode_bytes decodeFn data encoding = some d) :
    d.newline_style = detect_newline_style_bytes data ∧
    d.had_bom = (decide (BOM_UTF8.isPrefixOf data) ||
      (decide (BOM_UTF16_LE.isPrefixOf data) ||
        decide (BOM_UTF16_BE.isPrefixOf data))) := by
  simp only [decode_bytes] at hd
  obtain ⟨txt, -, hf⟩ := Option.map_eq_some'.mp hd
  cases hf
  exact ⟨rfl, rfl⟩

/-! ## Claim C3 -/

/-- C3: encoding `"a\nb"` as utf-8 with `newline_style="\r\n"` and
`add_bom=True` yields exactly `EF BB BF 61 0D 0A 62`, and `decode_bytes`
on those bytes reports `had_bom=True` and `newline_style="\r\n"` under
every decoder and encoding label for which the decode completes (the two
fields are computed from the bytes alone, before the label is used). -/
theorem C3_bom_newline_roundtrip (encodeFn : String → String → List Nat)
    (h : encodeFn "utf-8" "a\r\nb" = [0x61, 0x0D, 0x0A, 0x62]) :
    encode_text encodeFn "a\nb" "utf-8" (some "\r\n") true
      = [0xEF, 0xBB, 0xBF, 0x61, 0x0D, 0x0A, 0x62]
    ∧ ∀ (decodeFn : String → List Nat → Option String) (label : String)
        (d : DecodedText),
        decode_bytes decodeFn [0xEF, 0xBB, 0xBF, 0x61, 0x0D, 0x0A, 0x62] label
          = some d →
        d.had_bom = true ∧ d.newline_style = "\r\n" := by
  constructor
  · have key : encode_text encodeFn "a\nb" "utf-8" (some "\r\n") true
        = BOM_UTF8 ++ encodeFn "utf-8" (normalize_newlines "a\nb" "\r\n") := rfl
    rw [key, show normalize_newlines "a\nb" "\r\n" = "a\r\nb" from by decide, h]
    rfl
  · intro decodeFn label d hd
    obtain ⟨hn, hb⟩ := decode_bytes_ok_fields decodeFn _ label d hd
    rw [hn, hb]
    exact ⟨by decide, by decide⟩

/-- Witness for C3 with the concrete UTF-8 encoder. -/
theorem C3_bom_newline_roundtrip_w :
    encode_text (fun _ s => utf8Encode s) "a\nb" "utf-8" (some "\r\n") true
      = [0xEF, 0xBB, 0xBF, 0x61, 0x0D, 0x0A, 0x62] :=
  (C3_bom_newline_roundtrip (fun _ s => utf8Encode s) (by decide)).1

/-! ## Claim C5 -/

/-- C5 (the code contradicts the spec and its own docstrings): with
`parser_id = "kirikiri.ks.yandere"` stored and only `"kirikiri.ks"`
installed, no selection path ever retries the base segment or returns the
base handler.  `select_parser` itself contains no base-id retry, and its
explicit-id path evaluates `mgr.get(parser_id)` on a `ParserManager` that
defines no `get`, so it raises `AttributeError` — for the base id
`"kirikiri.ks"` exactly as for the profile id.  The retry logic in
`ParserUtilsMixin._select_parser_with_fallback` — whose own docstring
promises the base fallback — passes the keyword `parser_id` that
`select_parser(project, file_path, text)` does not accept, so whatever
the call bodies would have returned, every attempt (exact, base, and the
final uncaught autodetect call) raises `TypeError`. -/
theorem C5_profile_fallback_broken :
    selectParserDeployed [⟨"kirikiri.ks", none, none⟩]
      "kirikiri.ks.yandere" "script.ks"
      = Except.error
          (PyError.attributeError "'ParserManager' object has no attribute 'get'")
    ∧ selectParserDeployed [⟨"kirikiri.ks", none, none⟩]
      "kirikiri.ks" "script.ks"
      = Except.error
          (PyError.attributeError "'ParserManager' object has no attribute 'get'")
    ∧ ∀ bodyExact bodyBase bodyAuto : Except PyError UiPlugin,
        select_parser_with_fallback "kirikiri.ks.yandere"
          bodyExact bodyBase bodyAuto
          = Except.error (PyError.typeError
              "select_parser() got an unexpected keyword argument 'parser_id'") := by
  refine ⟨rfl, rfl, ?_⟩
  intro bodyExact bodyBase bodyAuto
  rfl

/-! ## Claim C6 -/

/-- C6 (counterexample): `new_entry` does not force every status into the
four canonical values — an unknown spelling is propagated (in lowercase
snake_case), e.g. `"mystery_value"`. -/
theorem C6_status_counterexample :
    (new_entry "" "" "mystery_value").status = "mystery_value"
    ∧ "mystery_value" ∉ canonicalStatuses := by
  exact ⟨by decide, by decide⟩

/-- C6 (amended): `new_entry` trims, lower-cases and snake-cases the
status; the recognized spellings (the canonical four plus
`not_translated`, `inprogress`, `done`, `approved`, in any casing or
spacing) and the empty status map to the canonical four values; any other
spelling is propagated in its normalized lowercase snake_case form, so the
result is always canonical-or-normalized. -/
theorem C6_status_normalization (original translation s : String) :
    (snakeLower (if s = "" then "untranslated" else s) ∈ recognizedStatuses ∨
        snakeLower (if s = "" then "untranslated" else s) = "" →
      (new_entry original translation s).status ∈ canonicalStatuses)
    ∧ (snakeLower (if s = "" then "untranslated" else s) ∉ recognizedStatuses →
        snakeLower (if s = "" then "untranslated" else s) ≠ "" →
        (new_entry original translation s).status
          = snakeLower (if s = "" then "untranslated" else s))
    ∧ ((new_entry original translation s).status ∈ canonicalStatuses ∨
        (new_entry original translation s).status
          = snakeLower (if s = "" then "untranslated" else s)) := by
  have h1 : snakeLower (if s = "" then "untranslated" else s) ∈ recognizedStatuses ∨
      snakeLower (if s = "" then "untranslated" else s) = "" →
      (new_entry original translation s).status ∈ canonicalStatuses := by
    intro h
    simp only [new_entry]
    split_ifs <;> simp_all [recognizedStatuses, canonicalStatuses]
  have h2 : snakeLower (if s = "" then "untranslated" else s) ∉ recognizedStatuses →
      snakeLower (if s = "" then "untranslated" else s) ≠ "" →
      (new_entry original translation s).status
        = snakeLower (if s = "" then "untranslated" else s) := by
    intro hm he
    simp only [recognizedStatuses, List.mem_cons, List.not_mem_nil, or_false,
      not_or] at hm
    obtain ⟨n1, n2, n3, n4, n5, n6, n7, n8⟩ := hm
    simp [new_entry, n1, n2, n3, n4, n5, n6, n7, n8, he]
  refine ⟨h1, h2, ?_⟩
  by_cases hc : snakeLower (if s = "" then "untranslated" else s) ∈ recognizedStatuses ∨
      snakeLower (if s = "" then "untranslated" else s) = ""
  · exact Or.inl (h1 hc)
  · push_neg at hc
    exact Or.inr (h2 hc.1 hc.2)

/-- Witness for C6's amended theorem at the legacy spelling `"Done"`. -/
theorem C6_status_normalization_w :
    (new_entry "" "" "Done").status ∈ canonicalStatuses :=
  (C6_status_normalization "" "" "Done").1 (Or.inl (by decide))

/-! ## Claim C4 -/

theorem find?_split {α : Type} (p : α → Bool) (l : List α) (a : α)
    (h : l.find? p = some a) :
    ∃ l1 l2, l = l1 ++ a :: l2 ∧ (∀ x ∈ l1, p x = false) ∧ p a = true := by
  induction l with
  | nil => cases h
  | cons y ys ih =>
    by_cases hy : p y = true
    · rw [List.find?_cons_of_pos _ hy] at h
      injection h with h
      subst h
      exact ⟨[], ys, rfl, fun x hx => absurd hx (List.not_mem_nil x), hy⟩
    · have hy' : p y = false := by simpa using hy
      rw [List.find?_cons_of_neg _ (by simp [hy'])] at h
      obtain ⟨l1, l2, rfl, hall, hpa⟩ := ih h
      refine ⟨y :: l1, l2, rfl, ?_, hpa⟩
      intro x hx
      rcases List.mem_cons.mp hx with rfl | hx
      · exact hy'
      · exact hall x hx

/-- C4: on the file-open path, the encoding used to decode is the first
element of the ranked candidate list (recorded state encoding, BOM-implied
encoding, project hint, regional fallbacks, deduplicated in order) whose
strict decode succeeds; when no candidate strictly decodes, the project
hint is used (the subsequent decode runs with `errors="replace"`); the
chosen encoding is the one recorded on the resulting tab/context; and the
only error exit of this path is the caught decode failure — candidate
ranking itself never raises. -/
theorem C4_open_encoding_choice (sd rd : String → List Nat → Option String)
    (stRaw projEnc : String) (raw : List Nat) :
    (∀ tab, openFileDecode sd rd stRaw projEnc raw = Except.ok tab →
        tab.encoding = chosenEncoding sd (pyTrim stRaw) (normHint projEnc) raw)
    ∧ (∀ e, (buildCandidates (pyTrim stRaw) (normHint projEnc) raw).find?
          (fun c => (sd c raw).isSome) = some e →
        ∃ l1 l2, buildCandidates (pyTrim stRaw) (normHint projEnc) raw
            = l1 ++ e :: l2
          ∧ (∀ x ∈ l1, sd x raw = none) ∧ (sd e raw).isSome = true
          ∧ chosenEncoding sd (pyTrim stRaw) (normHint projEnc) raw = e)
    ∧ ((buildCandidates (pyTrim stRaw) (normHint projEnc) raw).find?
          (fun c => (sd c raw).isSome) = none →
        chosenEncoding sd (pyTrim stRaw) (normHint projEnc) raw
          = normHint projEnc)
    ∧ (∀ m, openFileDecode sd rd stRaw projEnc raw = Except.error m →
        decode_bytes rd raw
          (chosenEncoding sd (pyTrim stRaw) (normHint projEnc) raw) = none) := by
  refine ⟨?_, ?_, ?_, ?_⟩
  · intro tab h
    simp only [openFileDecode] at h
    cases hdec : decode_bytes rd raw
        (chosenEncoding sd (pyTrim stRaw) (normHint projEnc) raw) with
    | none => rw [hdec] at h; simp at h
    | some d =>
      rw [hdec] at h
      simp only [Except.ok.injEq] at h
      rw [← h]
  · intro e h
    obtain ⟨l1, l2, hsplit, hall, hpa⟩ :=
      find?_split (fun c => (sd c raw).isSome) _ e h
    refine ⟨l1, l2, hsplit, ?_, hpa, ?_⟩
    · intro x hx
      have hfx := hall x hx
      cases hsx : sd x raw with
      | none => rfl
      | some v => rw [hsx] at hfx; simp at hfx
    · simp only [chosenEncoding, h, Option.getD_some]
  · intro h
    simp only [chosenEncoding, h, Option.getD_none]
  · intro m h
    simp only [openFileDecode] at h
    cases hdec : decode_bytes rd raw
        (chosenEncoding sd (pyTrim stRaw) (normHint projEnc) raw) with
    | none => rfl
    | some d => rw [hdec] at h; simp at h

/-- Witness for C4: state encoding absent, hint `cp932` undecodable,
`utf-8` the first strict success. -/
theorem C4_open_encoding_choice_w :
    ("utf-8" : String)
      = chosenEncoding (fun e _ => if e = "utf-8" then some "ok" else none)
          (pyTrim "") (normHint "cp932") [0x61] :=
  (C4_open_encoding_choice (fun e _ => if e = "utf-8" then some "ok" else none)
      (fun _ _ => some "txt") "" "cp932" [0x61]).1
    ⟨"utf-8", "\n", false, "txt"⟩ (by rfl)

/-! ## Claim C7 -/

theorem buildItems_cons_skip (hash : List Nat → String)
    (root : String → Option (List Nat)) (it : ManifestItem)
    (rest : List ManifestItem) (acc : List (String × List Nat)) (n : Nat)
    (hf : pyTrim it.folder = "") :
    buildItems hash root (it :: rest) acc n = buildItems hash root rest acc n := by
  simp [buildItems, hf]

theorem buildItems_cons_missing (hash : List Nat → String)
    (root : String → Option (List Nat)) (it : ManifestItem)
    (rest : List ManifestItem) (acc : List (String × List Nat)) (n : Nat)
    (hf : pyTrim it.folder ≠ "") (hr : root (pyTrim it.folder) = none) :
    buildItems hash root (it :: rest) acc n
      = Except.error (missingPluginMsg (pyTrim it.folder)) := by
  simp [buildItems, hf, hr]

theorem buildItems_cons_bad (hash : List Nat → String)
    (root : String → Option (List Nat)) (it : ManifestItem)
    (rest : List ManifestItem) (acc : List (String × List Nat)) (n : Nat)
    (content : List Nat) (hf : pyTrim it.folder ≠ "")
    (hr : root (pyTrim it.folder) = some content)
    (hc : pyLower (pyTrim it.sha256) ≠ "" ∧
      pyLower (hash content) ≠ pyLower (pyTrim it.sha256)) :
    buildItems hash root (it :: rest) acc n
      = Except.error (shaErrMsg
          (if pyTrim it.id = "" then pyTrim it.folder else pyTrim it.id)
          (pyLower (pyTrim it.sha256)) (hash content)) := by
  simp only [buildItems, hr]
  rw [if_neg hf, if_pos hc]

theorem buildItems_cons_good (hash : List Nat → String)
    (root : String → Option (List Nat)) (it : ManifestItem)
    (rest : List ManifestItem) (acc : List (String × List Nat)) (n : Nat)
    (content : List Nat) (hf : pyTrim it.folder ≠ "")
    (hr : root (pyTrim it.folder) = some content)
    (hc : ¬ (pyLower (pyTrim it.sha256) ≠ "" ∧
      pyLower (hash content) ≠ pyLower (pyTrim it.sha256))) :
    buildItems hash root (it :: rest) acc n
      = buildItems hash root rest (dictSet acc (pyTrim it.folder) content) (n + 1) := by
  simp only [buildItems, hr]
  rw [if_neg hf, if_neg hc]

theorem buildItems_append_ok (hash : List Nat → String)
    (root : String → Option (List Nat)) (l1 l2 : List ManifestItem)
    (acc a : List (String × List Nat)) (n m : Nat)
    (h : buildItems hash root l1 acc n = Except.ok (a, m)) :
    buildItems hash root (l1 ++ l2) acc n = buildItems hash root l2 a m := by
  induction l1 generalizing acc n with
  | nil =>
    simp only [buildItems, Except.ok.injEq, Prod.mk.injEq] at h
    rw [List.nil_append, h.1, h.2]
  | cons it rest ih =>
    rw [List.cons_append]
    by_cases hf : pyTrim it.folder = ""
    · rw [buildItems_cons_skip hash root it rest acc n hf] at h
      rw [buildItems_cons_skip hash root it (rest ++ l2) acc n hf]
      exact ih _ _ h
    · cases hr : root (pyTrim it.folder) with
      | none =>
        rw [buildItems_cons_missing hash root it rest acc n hf hr] at h
        simp at h
      | some content =>
        by_cases hc : pyLower (pyTrim it.sha256) ≠ "" ∧
            pyLower (hash content) ≠ pyLower (pyTrim it.sha256)
        · rw [buildItems_cons_bad hash root it rest acc n content hf hr hc] at h
          simp at h
        · rw [buildItems_cons_good hash root it rest acc n content hf hr hc] at h
          rw [buildItems_cons_good hash root it (rest ++ l2) acc n content hf hr hc]
          exact ih _ _ h

/-- C7: for a manifest item carrying a `sha256`, installation hashes that
item's bundled `plugin.py`; a mismatch raises an integrity error whose
message contains the item's id (or its folder when the id is empty) and
both the expected and the obtained hash values, and the live installed
directory is left exactly as it was (the staged build is discarded before
the atomic swap); a match lets the item install and the loop proceed. -/
theorem C7_manifest_sha_integrity (hash : List Nat → String)
    (root : String → Option (List Nat)) (pre post : List ManifestItem)
    (it : ManifestItem) (live acc : List (String × List Nat)) (n : Nat)
    (content : List Nat)
    (hpre : buildItems hash root pre [] 0 = Except.ok (acc, n))
    (hfolder : pyTrim it.folder ≠ "")
    (hsha : pyLower (pyTrim it.sha256) ≠ "")
    (hroot : root (pyTrim it.folder) = some content) :
    (pyLower (hash content) ≠ pyLower (pyTrim it.sha256) →
      installFromManifest hash root (pre ++ it :: post) live
        = (Except.error (shaErrMsg
            (if pyTrim it.id = "" then pyTrim it.folder else pyTrim it.id)
            (pyLower (pyTrim it.sha256)) (hash content)), live)
      ∧ (if pyTrim it.id = "" then pyTrim it.folder else pyTrim it.id).data <:+:
          (shaErrMsg (if pyTrim it.id = "" then pyTrim it.folder else pyTrim it.id)
            (pyLower (pyTrim it.sha256)) (hash content)).data
      ∧ (pyLower (pyTrim it.sha256)).data <:+:
          (shaErrMsg (if pyTrim it.id = "" then pyTrim it.folder else pyTrim it.id)
            (pyLower (pyTrim it.sha256)) (hash content)).data
      ∧ (hash content).data <:+:
          (shaErrMsg (if pyTrim it.id = "" then pyTrim it.folder else pyTrim it.id)
            (pyLower (pyTrim it.sha256)) (hash content)).data)
    ∧ (pyLower (hash content) = pyLower (pyTrim it.sha256) →
      buildItems hash root (pre ++ it :: post) [] 0
        = buildItems hash root post (dictSet acc (pyTrim it.folder) content) (n + 1)) := by
  constructor
  · intro hne
    have hstep : buildItems hash root (it :: post) acc n
        = Except.error (shaErrMsg
            (if pyTrim it.id = "" then pyTrim it.folder else pyTrim it.id)
            (pyLower (pyTrim it.sha256)) (hash content)) := by
      exact buildItems_cons_bad hash root it post acc n content hfolder hroot ⟨hsha, hne⟩
    have hb : buildItems hash root (pre ++ it :: post) [] 0
        = Except.error (shaErrMsg
            (if pyTrim it.id = "" then pyTrim it.folder else pyTrim it.id)
            (pyLower (pyTrim it.sha256)) (hash content)) := by
      rw [buildItems_append_ok hash root pre (it :: post) [] acc 0 n hpre, hstep]
    refine ⟨?_, ?_, ?_, ?_⟩
    · simp only [installFromManifest, buildRepoFromManifest, hb]
    · exact ⟨("SHA256 inválido para '" : String).data,
        ("'.\n" ++ "Esperado: " ++ (pyLower (pyTrim it.sha256)) ++ "\n" ++
          "Obtido:   " ++ hash content).data,
        by simp [shaErrMsg, String.data_append]⟩
    · exact ⟨("SHA256 inválido para '" ++
          (if pyTrim it.id = "" then pyTrim it.folder else pyTrim it.id) ++
          "'.\n" ++ "Esperado: ").data,
        ("\n" ++ "Obtido:   " ++ hash content).data,
        by simp [shaErrMsg, String.data_append]⟩
    · exact ⟨("SHA256 inválido para '" ++
          (if pyTrim it.id = "" then pyTrim it.folder else pyTrim it.id) ++
          "'.\n" ++ "Esperado: " ++ (pyLower (pyTrim it.sha256)) ++ "\n" ++
          "Obtido:   ").data, [],
        by simp [shaErrMsg, String.data_append]⟩
  · intro heq
    rw [buildItems_append_ok hash root pre (it :: post) [] acc 0 n hpre]
    exact buildItems_cons_good hash root it post acc n content hfolder hroot
      (fun hc => hc.2 heq)

/-- Witness for C7: a one-item manifest whose recorded hash does not match
the hashed `plugin.py` payload fails with the integrity message and leaves
the live directory untouched. -/
theorem C7_manifest_sha_integrity_w :
    installFromManifest (fun _ => "aa")
      (fun f => if f = "kirikiri" then some [1, 2] else none)
      [⟨"kirikiri", "kirikiri.ks", "bb"⟩] [("old", [9])]
      = (Except.error (shaErrMsg "kirikiri.ks" "bb" "aa"), [("old", [9])]) :=
  ((C7_manifest_sha_integrity (fun _ => "aa")
      (fun f => if f = "kirikiri" then some [1, 2] else none)
      [] [] ⟨"kirikiri", "kirikiri.ks", "bb"⟩ [("old", [9])] [] 0 [1, 2]
      (by rfl) (by decide) (by decide) (by rfl)).1 (by decide)).1

end Sekai
